import Mathlib

/-!
Shallow embedding of the `uptimer` command-line driver (`main` package) and its
`config` package, translated from the Go source.  External collaborator
packages (`cfWorkflow`, `cfCmdGenerator`, `cmdRunner`, `measurement`,
`orchestrator`) that are not part of the provided source are modelled either as
abstract oracles (records of functions / environment fields) or, where a claim
depends on their behaviour, from the specification text, with a doc comment
saying so.
-/

/-! ### Go standard-library fragments used by the source -/

/-- Embedding of comparing a candidate pattern against the front of a
character list (the core of Go `strings.Contains` search). -/
def listPrefixEq : List Char → List Char → Bool
  | [], _ => true
  | _ :: _, [] => false
  | a :: as, b :: bs => a == b && listPrefixEq as bs

/-- Naive substring search over character lists: does `s` contain `sub`
as a contiguous run?  Embeds the semantics of Go `strings.Contains`. -/
def listContainsSub (sub : List Char) : List Char → Bool
  | [] => listPrefixEq sub []
  | c :: t => listPrefixEq sub (c :: t) || listContainsSub sub t

/-- Embedding of Go `strings.Contains(s, substr)`. -/
def strings_Contains (s substr : String) : Bool :=
  listContainsSub substr.toList s.toList

theorem listPrefixEq_iff (sub s : List Char) :
    listPrefixEq sub s = true ↔ ∃ rest, s = sub ++ rest := by
  induction sub generalizing s with
  | nil => simp [listPrefixEq]
  | cons a as ih =>
    cases s with
    | nil => simp [listPrefixEq]
    | cons b bs =>
      simp only [listPrefixEq, Bool.and_eq_true, beq_iff_eq, ih, List.cons_append,
        List.cons.injEq]
      constructor
      · rintro ⟨rfl, rest, rfl⟩
        exact ⟨rest, rfl, rfl⟩
      · rintro ⟨rest, rfl, rfl⟩
        exact ⟨rfl, rest, rfl⟩

theorem listContainsSub_iff (sub s : List Char) :
    listContainsSub sub s = true ↔ ∃ pre post, s = pre ++ sub ++ post := by
  induction s with
  | nil =>
    simp only [listContainsSub, listPrefixEq_iff]
    constructor
    · rintro ⟨rest, h⟩
      rcases List.append_eq_nil.mp h.symm with ⟨h1, h2⟩
      exact ⟨[], [], by simp [h1, h2]⟩
    · rintro ⟨pre, post, h⟩
      rcases List.append_eq_nil.mp h.symm with ⟨h1, h2⟩
      rcases List.append_eq_nil.mp h1 with ⟨h3, h4⟩
      exact ⟨[], by simp [h4]⟩
  | cons c t ih =>
    simp only [listContainsSub, Bool.or_eq_true, listPrefixEq_iff, ih]
    constructor
    · rintro (⟨rest, h⟩ | ⟨pre, post, rfl⟩)
      · exact ⟨[], rest, by simp [h]⟩
      · exact ⟨c :: pre, post, rfl⟩
    · rintro ⟨pre, post, h⟩
      cases pre with
      | nil =>
        left
        exact ⟨post, by simpa using h⟩
      | cons p ps =>
        right
        simp only [List.cons_append, List.cons.injEq] at h
        exact ⟨ps, post, h.2⟩

theorem strings_Contains_iff (s substr : String) :
    strings_Contains s substr = true ↔
      ∃ pre post, s.toList = pre ++ substr.toList ++ post :=
  listContainsSub_iff substr.toList s.toList

/-! ### The retry predicate from `createMeasurements` -/

/-- The transient-failure message matched by the retry predicate
(source: `main.go`, `createMeasurements`). -/
def authFailedMessage : String :=
  "Authentication has expired.  Please log back in to re-authenticate."

/-- Embedding of the `authFailedRetryFunc` closure from `createMeasurements`:
`strings.Contains(stdOut, msg) || strings.Contains(stdErr, msg)`. -/
def authFailedRetryFunc (stdOut stdErr : String) : Bool :=
  strings_Contains stdOut authFailedMessage || strings_Contains stdErr authFailedMessage

/-! ### The `config` package (`config/config.go`) -/

/-- JSON values, the input domain of Go `encoding/json` unmarshalling.
Numbers are restricted to the integers, which covers every number that can be
decoded into the `int` fields of the config structs. -/
inductive Json where
  | null
  | bool (b : Bool)
  | num (n : Int)
  | str (s : String)
  | arr (elems : List Json)
  | obj (fields : List (String × Json))

/-- Field lookup in a JSON object, with Go `encoding/json` duplicate-key
semantics: a later duplicate key overwrites an earlier one. -/
def jsonLookup (fields : List (String × Json)) (key : String) : Option Json :=
  (fields.reverse.find? (fun kv => kv.1 == key)).map (fun kv => kv.2)

/-- Decoding a JSON object field into a Go `int` struct field: a missing key
or JSON `null` leaves the zero value; a number is taken as-is — including a
negative one; anything else is a type error. -/
def intField (fields : List (String × Json)) (key : String) : Except String Int :=
  match jsonLookup fields key with
  | none => .ok 0
  | some .null => .ok 0
  | some (.num n) => .ok n
  | some _ => .error ("cannot unmarshal into int field " ++ key)

/-- Decoding a JSON object field into a Go `string` struct field. -/
def strField (fields : List (String × Json)) (key : String) : Except String String :=
  match jsonLookup fields key with
  | none => .ok ""
  | some .null => .ok ""
  | some (.str s) => .ok s
  | some _ => .error ("cannot unmarshal into string field " ++ key)

/-- `config.AllowedFailures` (config.go): the four per-probe allowed-failure
counts, Go `int` fields. -/
structure AllowedFailures where
  AppPushability : Int
  HttpAvailability : Int
  RecentLogs : Int
  StreamingLogs : Int
deriving DecidableEq

set_option linter.dupNamespace false

/-- `config.Command` (config.go). -/
structure Command where
  Command : String
  CommandArgs : List String
deriving DecidableEq

/-- `config.Cf` (config.go). -/
structure Cf where
  API : String
  AppDomain : String
  AdminUser : String
  AdminPassword : String
  TCPDomain : String
  AvailablePort : Int
deriving DecidableEq

/-- `config.Config` (config.go): `While []*Command`, `CF *Cf`,
`AllowedFailures AllowedFailures`.  Go pointers appear as `Option`. -/
structure Config where
  While : List (Option Command)
  CF : Option Cf
  AllowedFailures : AllowedFailures
deriving DecidableEq

def zeroAllowedFailures : AllowedFailures := ⟨0, 0, 0, 0⟩

def unmarshalAllowedFailures : Json → Except String AllowedFailures
  | .null => .ok zeroAllowedFailures
  | .obj fs => do
    let ap ← intField fs "app_pushability"
    let ha ← intField fs "http_availability"
    let rl ← intField fs "recent_logs"
    let sl ← intField fs "streaming_logs"
    .ok ⟨ap, ha, rl, sl⟩
  | _ => .error "cannot unmarshal into AllowedFailures"

def unmarshalStringList : Json → Except String (List String)
  | .null => .ok []
  | .arr xs => xs.mapM (fun j =>
      match j with
      | .null => .ok ""
      | .str s => .ok s
      | _ => .error "cannot unmarshal into string")
  | _ => .error "cannot unmarshal into string slice"

def unmarshalCommand : Json → Except String Command
  | .obj fs => do
    let c ← strField fs "command"
    let args ← match jsonLookup fs "command_args" with
      | none => .ok []
      | some j => unmarshalStringList j
    .ok ⟨c, args⟩
  | _ => .error "cannot unmarshal into Command"

def unmarshalCommandPtr : Json → Except String (Option Command)
  | .null => .ok none
  | j => (unmarshalCommand j).map some

def unmarshalWhile : Json → Except String (List (Option Command))
  | .null => .ok []
  | .arr xs => xs.mapM unmarshalCommandPtr
  | _ => .error "cannot unmarshal into Command slice"

def unmarshalCf : Json → Except String Cf
  | .obj fs => do
    let api ← strField fs "api"
    let appDomain ← strField fs "app_domain"
    let adminUser ← strField fs "admin_user"
    let adminPassword ← strField fs "admin_password"
    let tcpDomain ← strField fs "tcp_domain"
    let availablePort ← intField fs "available_port"
    .ok ⟨api, appDomain, adminUser, adminPassword, tcpDomain, availablePort⟩
  | _ => .error "cannot unmarshal into Cf"

/-- Go `json.Unmarshal(data, newConfig)` specialised to `*config.Config`:
unknown keys are ignored, missing keys and `null` leave zero values, type
mismatches fail.  No field value is validated or normalised. -/
def json_Unmarshal_Config : Json → Except String Config
  | .null => .ok ⟨[], none, zeroAllowedFailures⟩
  | .obj fs => do
    let w ← match jsonLookup fs "while" with
      | none => .ok []
      | some j => unmarshalWhile j
    let cf ← match jsonLookup fs "cf" with
      | none => .ok none
      | some .null => .ok none
      | some j => (unmarshalCf j).map some
    let af ← match jsonLookup fs "allowed_failures" with
      | none => .ok zeroAllowedFailures
      | some j => unmarshalAllowedFailures j
    .ok ⟨w, cf, af⟩
  | _ => .error "cannot unmarshal into Config"

/-- Embedding of `config.Load` (config.go): read the file (the read and the
textual JSON parse are abstracted into the `contents` argument), unmarshal it
into a fresh `Config`, and return it — with no validation of any field. -/
def config_Load (contents : Except String Json) : Except String Config := do
  let data ← contents
  json_Unmarshal_Config data

/-- C5: the retry predicate `authFailedRetryFunc` is a pure function of its two
string arguments and returns `true` iff at least one of them contains the exact
substring "Authentication has expired.  Please log back in to re-authenticate.";
it matches nothing else. -/
theorem authFailedRetryFunc_iff_contains_authFailedMessage (stdOut stdErr : String) :
    authFailedRetryFunc stdOut stdErr = true ↔
      ((∃ pre post, stdOut.toList = pre ++ authFailedMessage.toList ++ post) ∨
       (∃ pre post, stdErr.toList = pre ++ authFailedMessage.toList ++ post)) := by
  simp only [authFailedRetryFunc, Bool.or_eq_true, strings_Contains_iff]

/-- The JSON content of a config file whose `allowed_failures` object carries
a negative count. -/
def negativeAllowedFailuresJson : Json :=
  .obj [("allowed_failures", .obj [("app_pushability", .num (-3))])]

/-- C7 counterexample: `config.Load` accepts a readable, valid-JSON config
file whose `app_pushability` allowed-failure count is `-3`, returning it
unchanged — so it neither rejects nor normalises negative allowed-failure
values. -/
theorem config_Load_accepts_negative_allowedFailures :
    ¬ (∀ j cfg, config_Load (.ok j) = .ok cfg →
        0 ≤ cfg.AllowedFailures.AppPushability ∧
        0 ≤ cfg.AllowedFailures.HttpAvailability ∧
        0 ≤ cfg.AllowedFailures.RecentLogs ∧
        0 ≤ cfg.AllowedFailures.StreamingLogs) := by
  intro h
  have hload : config_Load (.ok negativeAllowedFailuresJson) =
      .ok ⟨[], none, ⟨-3, 0, 0, 0⟩⟩ := rfl
  have := (h negativeAllowedFailuresJson _ hload).1
  exact absurd this (by decide)

/-- A config file whose `allowed_failures` object carries the four given
integer counts. -/
def allowedFailuresJson (ap ha rl sl : Int) : Json :=
  .obj [("allowed_failures", .obj
    [("app_pushability", .num ap), ("http_availability", .num ha),
     ("recent_logs", .num rl), ("streaming_logs", .num sl)])]

/-- C7 (amended): `config.Load` performs no validation or normalisation of the
allowed-failure counts — it returns exactly the integers the JSON file
supplies, negative values included. -/
theorem config_Load_passes_allowedFailures_through (ap ha rl sl : Int) :
    config_Load (.ok (allowedFailuresJson ap ha rl sl)) =
      .ok ⟨[], none, ⟨ap, ha, rl, sl⟩⟩ := rfl

/-! ### Time, contexts, workflows, runners (Go stdlib and collaborators) -/

/-- Go `time.Second` in nanoseconds. -/
def time_Second : Nat := 1000000000

/-- Go `time.Minute` in nanoseconds. -/
def time_Minute : Nat := 60 * time_Second

/-- A `cmdStartWaiter.CmdStartWaiter`: an external command descriptor
(program plus arguments).  Produced by the workflow collaborator. -/
structure CmdStartWaiter where
  program : String
  args : List String
deriving DecidableEq

/-- A `cfCmdGenerator.CfCmdGenerator`, as built by `cfCmdGenerator.New(tmpDir)`
in main.go: identified by the temp dir handed to it. -/
structure CfCmdGenerator where
  useTmpDir : String
deriving DecidableEq

/-- A Go `context.Context` as produced by `context.WithTimeout`: identified by
a fresh allocation id, carrying its deadline (absolute, nanoseconds). -/
structure GoContext where
  id : Nat
  deadline : Option Nat
deriving DecidableEq

/-- A Go `context.CancelFunc`: cancels exactly the context it was created
with, identified here by that context's allocation id. -/
structure CancelFunc where
  ctxId : Nat
deriving DecidableEq

/-- Allocation state for contexts: the current wall-clock instant (nanoseconds)
and the next fresh allocation id. -/
structure CtxState where
  now : Nat
  nextId : Nat
deriving DecidableEq

/-- Embedding of Go `context.WithTimeout(context.Background(), d)`: returns a
fresh context whose deadline is `d` from the current instant, together with a
cancel function bound to that context. -/
def context_WithTimeout (s : CtxState) (d : Nat) : GoContext × CancelFunc × CtxState :=
  (⟨s.nextId, some (s.now + d)⟩, ⟨s.nextId⟩, ⟨s.now, s.nextId + 1⟩)

/-- A `cfWorkflow.CfWorkflow`: an external collaborator (§6 of the spec),
modelled as an abstract record of its command-descriptor-producing methods
used by main.go. -/
structure CfWorkflow where
  Push : CfCmdGenerator → List CmdStartWaiter
  Delete : CfCmdGenerator → List CmdStartWaiter
  RecentLogs : CfCmdGenerator → List CmdStartWaiter
  StreamLogs : GoContext → CfCmdGenerator → List CmdStartWaiter
  AppUrl : String

/-- The fields of a Go `http.Client` relevant to main.go.  Defaults are the Go
zero values: in Go, a `Timeout` of zero means **no** timeout, and
`insecureSkipVerify` stands for `Transport.TLSClientConfig.InsecureSkipVerify`
(`false` meaning certificates are verified). -/
structure HttpClient where
  timeoutNs : Nat := 0
  insecureSkipVerify : Bool := false
deriving DecidableEq

/-- The `http.Client` literal built in `createMeasurements` (main.go): only
`InsecureSkipVerify: true` is set; every other field — the `Timeout` included —
keeps its Go zero value. -/
def httpAvailabilityClient : HttpClient := { insecureSkipVerify := true }

/-- Embedding of `createBufferedRunner` (main.go): allocates a fresh buffered
command runner (identified by an allocation counter) with its two buffers, and
returns it together with the advanced counter. -/
def createBufferedRunner (alloc : Nat) : Nat × Nat := (alloc, alloc + 1)

/-! ### The four measurements built by `createMeasurements` (main.go) -/

structure RecentLogsMeasurement where
  supplier : Unit → List CmdStartWaiter
  runner : Nat

structure StreamingLogsMeasurement where
  supplier : CtxState → (GoContext × CancelFunc × List CmdStartWaiter) × CtxState
  runner : Nat

structure AppPushabilityMeasurement where
  supplier : Unit → List CmdStartWaiter
  runner : Nat

structure HTTPAvailabilityMeasurement where
  url : String
  client : HttpClient

inductive BaseMeasurement where
  | recentLogs (m : RecentLogsMeasurement)
  | streamingLogs (m : StreamingLogsMeasurement)
  | appPushability (m : AppPushabilityMeasurement)
  | httpAvailability (m : HTTPAvailabilityMeasurement)

/-- One entry of the `[]measurement.Measurement` list that `createMeasurements`
returns: `measurement.NewPeriodic(logger, clock, interval, base, resultSet,
allowedFailures, retryFunc)`. -/
structure Periodic where
  intervalNs : Nat
  base : BaseMeasurement
  allowedFailures : Int
  retryFunc : String → String → Bool

/-- The RecentLogs command-supplier closure from `createMeasurements`:
`func() []cmdStartWaiter.CmdStartWaiter { return orcWorkflow.RecentLogs(recentLogsCmdGenerator) }`. -/
def recentLogsSupplier (orcWorkflow : CfWorkflow)
    (recentLogsCmdGenerator : CfCmdGenerator) : Unit → List CmdStartWaiter :=
  fun _ => orcWorkflow.RecentLogs recentLogsCmdGenerator

/-- The StreamingLogs command-supplier closure from `createMeasurements`:
each call makes `ctx, cancelFunc := context.WithTimeout(context.Background(),
15*time.Second)` and returns them with
`orcWorkflow.StreamLogs(ctx, streamingLogsCmdGenerator)`. -/
def streamingLogsSupplier (orcWorkflow : CfWorkflow)
    (streamingLogsCmdGenerator : CfCmdGenerator) :
    CtxState → (GoContext × CancelFunc × List CmdStartWaiter) × CtxState :=
  fun s =>
    let r := context_WithTimeout s (15 * time_Second)
    ((r.1, r.2.1, orcWorkflow.StreamLogs r.1 streamingLogsCmdGenerator), r.2.2)

/-- The AppPushability command-supplier closure from `createMeasurements`:
`func() []cmdStartWaiter.CmdStartWaiter { return append(pushWorkflow.Push(pushCmdGenerator), pushWorkflow.Delete(pushCmdGenerator)...) }`. -/
def appPushabilitySupplier (pushWorkflow : CfWorkflow)
    (pushCmdGenerator : CfCmdGenerator) : Unit → List CmdStartWaiter :=
  fun _ => pushWorkflow.Push pushCmdGenerator ++ pushWorkflow.Delete pushCmdGenerator

/-- Embedding of `createMeasurements` (main.go): allocates one buffered runner
per command-driven measurement, builds the four base measurements, and wraps
them in `NewPeriodic` entries — intervals 1s, 1m, 10s, 30s; the
HTTPAvailability entry gets the constantly-false retry predicate, the other
three share `authFailedRetryFunc`. -/
def createMeasurements (orcWorkflow pushWorkflow : CfWorkflow)
    (recentLogsCmdGenerator streamingLogsCmdGenerator pushCmdGenerator : CfCmdGenerator)
    (allowedFailures : AllowedFailures) (alloc : Nat) : List Periodic × Nat :=
  let r1 := createBufferedRunner alloc
  let recentLogsMeasurement : RecentLogsMeasurement :=
    ⟨recentLogsSupplier orcWorkflow recentLogsCmdGenerator, r1.1⟩
  let r2 := createBufferedRunner r1.2
  let streamingLogsMeasurement : StreamingLogsMeasurement :=
    ⟨streamingLogsSupplier orcWorkflow streamingLogsCmdGenerator, r2.1⟩
  let r3 := createBufferedRunner r2.2
  let appPushabilityMeasurement : AppPushabilityMeasurement :=
    ⟨appPushabilitySupplier pushWorkflow pushCmdGenerator, r3.1⟩
  let httpAvailabilityMeasurement : HTTPAvailabilityMeasurement :=
    ⟨orcWorkflow.AppUrl, httpAvailabilityClient⟩
  ([⟨time_Second, .httpAvailability httpAvailabilityMeasurement,
      allowedFailures.HttpAvailability, fun _ _ => false⟩,
    ⟨time_Minute, .appPushability appPushabilityMeasurement,
      allowedFailures.AppPushability, authFailedRetryFunc⟩,
    ⟨10 * time_Second, .recentLogs recentLogsMeasurement,
      allowedFailures.RecentLogs, authFailedRetryFunc⟩,
    ⟨30 * time_Second, .streamingLogs streamingLogsMeasurement,
      allowedFailures.StreamingLogs, authFailedRetryFunc⟩],
   r3.2)

/-- Projects the AppPushability base measurement out of a periodic entry. -/
def Periodic.appPushabilityM : Periodic → Option AppPushabilityMeasurement
  | ⟨_, .appPushability m, _, _⟩ => some m
  | _ => none

/-- Projects the StreamingLogs base measurement out of a periodic entry. -/
def Periodic.streamingLogsM : Periodic → Option StreamingLogsMeasurement
  | ⟨_, .streamingLogs m, _, _⟩ => some m
  | _ => none

/-- Modelled from the spec: the Periodic Scheduler lives in the `measurement`
package, which is not under `src/`; per §4.4 it classifies a failed probe
invocation as transient — excluded from the Result Set — iff the retry
predicate returns `true` on the captured stdout/stderr. -/
def Periodic.classifiesTransient (p : Periodic) (stdOut stdErr : String) : Bool :=
  p.retryFunc stdOut stdErr

/-- Modelled from the spec: `measurement.NewAppPushability` is in the
`measurement` package, which is not under `src/`; per §4.2 the AppPushability
probe "runs a push-then-delete Command Descriptor pair via a fresh Command
Runner each invocation; success iff both commands succeed".  One invocation
allocates a fresh Command Runner, obtains the command list from the supplier,
and runs every command with that runner; it reports success, the runner used,
and the commands run, threading the allocation counter. -/
def appPushability_PerformMeasurement (m : AppPushabilityMeasurement)
    (runCmd : Nat → CmdStartWaiter → Bool) (alloc : Nat) :
    (Bool × Nat × List CmdStartWaiter) × Nat :=
  let r := createBufferedRunner alloc
  let cmds := m.supplier ()
  ((cmds.all (runCmd r.1), r.1, cmds), r.2)

/-- C4: every invocation of the StreamingLogs command supplier built in
`createMeasurements` creates a fresh cancellation context (a new allocation
id each time) with its own cancel function, the context's deadline is exactly
15 seconds after creation, and the stream-logs command descriptors are bound
to that very context; moreover that supplier is exactly the one carried by the
fourth periodic entry. -/
theorem streamingLogsSupplier_fresh_ctx_15s_bound
    (ow pw : CfWorkflow) (g1 g2 g3 : CfCmdGenerator)
    (af : AllowedFailures) (a : Nat) (s : CtxState) :
    (((createMeasurements ow pw g1 g2 g3 af a).1[3]?).bind Periodic.streamingLogsM
        = some ⟨streamingLogsSupplier ow g2, a + 1⟩) ∧
    ((streamingLogsSupplier ow g2 s).1.1.deadline = some (s.now + 15 * time_Second)) ∧
    ((streamingLogsSupplier ow g2 s).1.2.1.ctxId = (streamingLogsSupplier ow g2 s).1.1.id) ∧
    ((streamingLogsSupplier ow g2 s).1.2.2
        = ow.StreamLogs (streamingLogsSupplier ow g2 s).1.1 g2) ∧
    ((streamingLogsSupplier ow g2 s).1.1.id = s.nextId) ∧
    ((streamingLogsSupplier ow g2 ((streamingLogsSupplier ow g2 s).2)).1.1.id
        ≠ (streamingLogsSupplier ow g2 s).1.1.id) := by
  refine ⟨rfl, rfl, rfl, rfl, rfl, ?_⟩
  simp [streamingLogsSupplier, context_WithTimeout]

/-- C6: the AppPushability measurement built in `createMeasurements` carries
the supplier returning `pushWorkflow.Push` followed by `pushWorkflow.Delete`;
and (behaviour of the `measurement` package modelled from the spec) each
invocation runs exactly the supplied command pair with a freshly allocated
Command Runner, so two consecutive invocations never share a runner. -/
theorem appPushability_push_then_delete_fresh_runner
    (ow pw : CfWorkflow) (g1 g2 g3 : CfCmdGenerator)
    (af : AllowedFailures) (a : Nat)
    (m : AppPushabilityMeasurement) (runCmd : Nat → CmdStartWaiter → Bool) (alloc : Nat) :
    (((createMeasurements ow pw g1 g2 g3 af a).1[1]?).bind Periodic.appPushabilityM
        = some ⟨appPushabilitySupplier pw g3, a + 2⟩) ∧
    (appPushabilitySupplier pw g3 () = pw.Push g3 ++ pw.Delete g3) ∧
    ((appPushability_PerformMeasurement m runCmd alloc).1.2.2 = m.supplier ()) ∧
    ((appPushability_PerformMeasurement m runCmd
        ((appPushability_PerformMeasurement m runCmd alloc).2)).1.2.1
      ≠ (appPushability_PerformMeasurement m runCmd alloc).1.2.1) := by
  refine ⟨rfl, rfl, rfl, ?_⟩
  simp [appPushability_PerformMeasurement, createBufferedRunner]

/-- C10: the HTTPAvailability periodic measurement is the one built with the
constantly-false retry predicate — it classifies no failure as transient for
any captured output — while the other three periodic entries all share
`authFailedRetryFunc`. -/
theorem httpAvailability_retry_predicate_constantly_false
    (ow pw : CfWorkflow) (g1 g2 g3 : CfCmdGenerator)
    (af : AllowedFailures) (a : Nat) (stdOut stdErr : String) :
    (((createMeasurements ow pw g1 g2 g3 af a).1[0]?).map Periodic.base
        = some (.httpAvailability ⟨ow.AppUrl, httpAvailabilityClient⟩)) ∧
    ((createMeasurements ow pw g1 g2 g3 af a).1.map
        (fun p => p.classifiesTransient stdOut stdErr)
      = [false, authFailedRetryFunc stdOut stdErr,
         authFailedRetryFunc stdOut stdErr, authFailedRetryFunc stdOut stdErr]) :=
  ⟨rfl, rfl⟩

/-- C3 counterexample: the HTTP client built in `createMeasurements` for the
HTTPAvailability probe does **not** have a timeout configured: its `Timeout`
keeps the Go zero value, which means no timeout at all.  So the claim
"a short timeout configured and certificate validation disabled" is false of
this client. -/
theorem httpAvailabilityClient_claim_false :
    ¬ (httpAvailabilityClient.timeoutNs ≠ 0 ∧
       httpAvailabilityClient.insecureSkipVerify = true) := by
  intro h
  exact h.1 rfl

/-- C3 (amended): the HTTPAvailability probe's client — the one the first
periodic entry of `createMeasurements` carries — has certificate validation
disabled, but no timeout configured (`Timeout` is the Go zero value, meaning
no timeout). -/
theorem httpAvailabilityClient_insecure_no_timeout
    (ow pw : CfWorkflow) (g1 g2 g3 : CfCmdGenerator)
    (af : AllowedFailures) (a : Nat) :
    httpAvailabilityClient.insecureSkipVerify = true ∧
    httpAvailabilityClient.timeoutNs = 0 ∧
    (((createMeasurements ow pw g1 g2 g3 af a).1[0]?).map Periodic.base
        = some (.httpAvailability ⟨ow.AppUrl, httpAvailabilityClient⟩)) :=
  ⟨rfl, rfl, rfl⟩

/-! ### The `main` driver (main.go) -/

/-- The observable actions of one `main` invocation, in program order. -/
inductive Event where
  | printVersion
  | logConfigFlagError
  | loadConfig
  | logLoadError
  | buildApp
  | logBuildAppFailure
  | buildSinkApp
  | logBuildSinkAppFailure
  | makeTmpDirs
  | logTmpDirsFailure
  | pushSetup
  | logPushSetupFailure
  | sinkSetup
  | logSinkSetupFailure
  | orcSetup
  | logOrcSetupFailure
  | orcRun (performMeasurements : Bool)
  | logRunFailure
  | tearDownCall
  | logMainTearDownFailure
  | logPushTearDownFailure
deriving DecidableEq

/-- The environment of one `main` invocation: the parsed flags and the
outcomes of every effectful collaborator call `main` makes (file system, `go
build`, workflow commands, the orchestrator run while measurements are on,
teardown commands).  `none` means the call succeeded; `some e` that it
returned error `e`. -/
structure GoEnv where
  showVersion : Bool
  configPath : String
  loadResult : Except String Config
  buildAppErr : Option String
  buildSinkAppErr : Option String
  tmpDirsErr : Option String
  pushSetupErr : Option String
  sinkSetupErr : Option String
  orcSetupErr : Option String
  runResult : Nat × Option String
  mainTearDownErr : Option String
  pushTearDownErr : Option String

/-- Modelled from the spec: `orchestrator.Run` lives in the `orchestrator`
package, which is not under `src/`.  Per §4.5, "if `performMeasurements` is
false (setup or prerequisite build failed), returns a failure exit code
immediately" — exit codes are 0 for success and 1 for failure; otherwise the
run's outcome is the environment's oracle value. -/
def orchestrator_Run (performMeasurements : Bool) (env : GoEnv) : Nat × Option String :=
  if performMeasurements then env.runResult else (1, none)

/-- The value of main.go's `performMeasurements` variable after the build,
temp-dir and setup phases: it starts `true` and each listed failure sets it
`false`.  A syslog-sink build failure is only logged (main.go lines 67-72) and
does **not** touch the flag. -/
def performMeasurementsAfterSetup (env : GoEnv) : Bool :=
  let pm := true
  let pm := if env.buildAppErr.isSome then false else pm
  let pm := if env.tmpDirsErr.isSome then false else pm
  let pm := if env.pushSetupErr.isSome then false else pm
  let pm := if env.sinkSetupErr.isSome then false else pm
  let pm := if env.orcSetupErr.isSome then false else pm
  pm

/-- Emits a failure-log event exactly when the collaborator call failed. -/
def logIf (e : Event) (err : Option String) : List Event :=
  match err with
  | some _ => [e]
  | none => []

/-- The events of main.go's build/temp-dir/setup phases, in source order. -/
def setupEvents (env : GoEnv) : List Event :=
  [Event.buildApp] ++ logIf .logBuildAppFailure env.buildAppErr ++
  [Event.buildSinkApp] ++ logIf .logBuildSinkAppFailure env.buildSinkAppErr ++
  [Event.makeTmpDirs] ++ logIf .logTmpDirsFailure env.tmpDirsErr ++
  [Event.pushSetup] ++ logIf .logPushSetupFailure env.pushSetupErr ++
  [Event.sinkSetup] ++ logIf .logSinkSetupFailure env.sinkSetupErr ++
  [Event.orcSetup] ++ logIf .logOrcSetupFailure env.orcSetupErr

/-- Embedding of `tearDown` (main.go): runs `orc.TearDown` and then the push
workflow teardown, logging — and doing nothing else with — each failure. -/
def tearDown (env : GoEnv) : List Event :=
  logIf .logMainTearDownFailure env.mainTearDownErr ++
  logIf .logPushTearDownFailure env.pushTearDownErr

/-- Embedding of `main` (main.go), here named `goMain` since Lean reserves `main` for an IO entry point: flag handling, config loading, the
build/temp-dir/setup phases threading `performMeasurements`, the orchestrator
run, the unconditional teardown, and `os.Exit` with the run's exit code.  The
result is the event trace plus the process exit code. -/
def goMain (env : GoEnv) : List Event × Nat :=
  if env.showVersion then
    ([Event.printVersion], 0)
  else if env.configPath = "" then
    ([Event.logConfigFlagError], 1)
  else
    match env.loadResult with
    | .error _ => ([Event.loadConfig, Event.logLoadError], 1)
    | .ok _ =>
      let pm := performMeasurementsAfterSetup env
      let runRes := orchestrator_Run pm env
      (Event.loadConfig :: (setupEvents env ++
         Event.orcRun pm :: (logIf .logRunFailure runRes.2 ++
           Event.tearDownCall :: tearDown env)),
       runRes.1)

/-- C1: whenever the `-v` flag is set, `main` prints the version and exits 0,
and does nothing else — in particular it never reaches the config-file check,
whatever the `-configFile` value (the empty one included). -/
theorem main_v_flag_prints_version_exits_0 (env : GoEnv)
    (h : env.showVersion = true) :
    goMain env = ([Event.printVersion], 0) := by
  simp [goMain, h]

def envVFlag : GoEnv :=
  { showVersion := true, configPath := "", loadResult := .error "unread",
    buildAppErr := none, buildSinkAppErr := none, tmpDirsErr := none,
    pushSetupErr := none, sinkSetupErr := none, orcSetupErr := none,
    runResult := (0, none), mainTearDownErr := none, pushTearDownErr := none }

/-- C1 witness: a concrete invocation with `-v` set and `-configFile` absent. -/
theorem main_v_flag_witness :
    goMain envVFlag = ([Event.printVersion], 0) :=
  main_v_flag_prints_version_exits_0 envVFlag rfl

/-- C2: without `-v`, an empty `-configFile` makes `main` log the flag error
and exit 1, with no config load, setup, measurement run or teardown in the
trace. -/
theorem main_missing_configFile_exits_1 (env : GoEnv)
    (hv : env.showVersion = false) (hc : env.configPath = "") :
    goMain env = ([Event.logConfigFlagError], 1) := by
  simp [goMain, hv, hc]

def envNoConfigFlag : GoEnv :=
  { showVersion := false, configPath := "", loadResult := .error "unread",
    buildAppErr := none, buildSinkAppErr := none, tmpDirsErr := none,
    pushSetupErr := none, sinkSetupErr := none, orcSetupErr := none,
    runResult := (0, none), mainTearDownErr := none, pushTearDownErr := none }

/-- C2 witness: a concrete invocation with neither flag set. -/
theorem main_missing_configFile_witness :
    goMain envNoConfigFlag = ([Event.logConfigFlagError], 1) :=
  main_missing_configFile_exits_1 envNoConfigFlag rfl rfl

/-- C8: for every run that passes the flag and config-load checks, the trace
is the setup phase, then the orchestrator run, then — unconditionally,
whatever failed before — the teardown; the process exit code is exactly the
code `orchestrator.Run` returned; and the teardown outcomes never change the
exit code, they are only logged. -/
theorem main_teardown_unconditional_exit_from_run (env : GoEnv) (cfg : Config)
    (hv : env.showVersion = false) (hc : env.configPath ≠ "")
    (hl : env.loadResult = .ok cfg) :
    ((goMain env).1 =
        Event.loadConfig :: (setupEvents env ++
          Event.orcRun (performMeasurementsAfterSetup env) ::
            (logIf .logRunFailure
                (orchestrator_Run (performMeasurementsAfterSetup env) env).2 ++
              Event.tearDownCall :: tearDown env))) ∧
    ((goMain env).2 = (orchestrator_Run (performMeasurementsAfterSetup env) env).1) ∧
    (∀ e1 e2, (goMain { env with mainTearDownErr := e1, pushTearDownErr := e2 }).2
        = (goMain env).2) := by
  refine ⟨?_, ?_, ?_⟩
  · simp [goMain, hv, hc, hl]
  · simp [goMain, hv, hc, hl]
  · intro e1 e2
    simp [goMain, hv, hc, hl, performMeasurementsAfterSetup, orchestrator_Run]

/-- The zero-valued config, as decoded from an empty JSON object. -/
def cfgEmpty : Config := ⟨[], none, zeroAllowedFailures⟩

def envLoaded : GoEnv :=
  { showVersion := false, configPath := "config.json", loadResult := .ok cfgEmpty,
    buildAppErr := none, buildSinkAppErr := none, tmpDirsErr := none,
    pushSetupErr := none, sinkSetupErr := none, orcSetupErr := none,
    runResult := (0, none), mainTearDownErr := none, pushTearDownErr := none }

/-- C8 witness: a concrete successful run exits with exactly the code the
orchestrator run returned. -/
theorem main_teardown_unconditional_witness :
    (goMain envLoaded).2 =
      (orchestrator_Run (performMeasurementsAfterSetup envLoaded) envLoaded).1 :=
  (main_teardown_unconditional_exit_from_run envLoaded cfgEmpty rfl
    (by decide) rfl).2.1

def envSinkBuildFails : GoEnv :=
  { showVersion := false, configPath := "config.json", loadResult := .ok cfgEmpty,
    buildAppErr := none, buildSinkAppErr := some "go build failed",
    tmpDirsErr := none, pushSetupErr := none, sinkSetupErr := none,
    orcSetupErr := none, runResult := (0, none),
    mainTearDownErr := none, pushTearDownErr := none }

/-- C9 counterexample: when only the syslog-sink build fails, `main` never
sets `performMeasurements` to false — the orchestrator run happens with
measurements enabled and the process exits 0, not 1. -/
theorem main_sink_build_failure_keeps_measurements :
    envSinkBuildFails.buildSinkAppErr.isSome = true ∧
    Event.orcRun true ∈ (goMain envSinkBuildFails).1 ∧
    Event.orcRun false ∉ (goMain envSinkBuildFails).1 ∧
    (goMain envSinkBuildFails).2 = 0 := by
  refine ⟨rfl, by decide, by decide, rfl⟩

/-- C9 (amended): a failure building the **main** included app does disable
measurements: `performMeasurements` becomes false, the orchestrator run
happens with measurements disabled, and the process exits 1. -/
theorem main_app_build_failure_disables_measurements (env : GoEnv) (cfg : Config)
    (hv : env.showVersion = false) (hc : env.configPath ≠ "")
    (hl : env.loadResult = .ok cfg) (hb : env.buildAppErr.isSome = true) :
    performMeasurementsAfterSetup env = false ∧
    Event.orcRun false ∈ (goMain env).1 ∧
    (goMain env).2 = 1 := by
  have hpm : performMeasurementsAfterSetup env = false := by
    simp [performMeasurementsAfterSetup, hb]
  refine ⟨hpm, ?_, ?_⟩
  · simp [goMain, hv, hc, hl, hpm]
  · simp [goMain, hv, hc, hl, hpm, orchestrator_Run]

def envAppBuildFails : GoEnv :=
  { showVersion := false, configPath := "config.json", loadResult := .ok cfgEmpty,
    buildAppErr := some "go build failed", buildSinkAppErr := none,
    tmpDirsErr := none, pushSetupErr := none, sinkSetupErr := none,
    orcSetupErr := none, runResult := (0, none),
    mainTearDownErr := none, pushTearDownErr := none }

/-- C9 witness: a concrete run whose main-app build fails exits 1. -/
theorem main_app_build_failure_witness :
    (goMain envAppBuildFails).2 = 1 :=
  (main_app_build_failure_disables_measurements envAppBuildFails cfgEmpty rfl
    (by decide) rfl rfl).2.2
